import Mathlib

/- Shallow embedding of the query-intent resolution and funnel-aggregation
pipeline of the csv-query-bot repository.  JavaScript strings are modelled
as Lean `String` (lists of characters, ASCII case folding), JavaScript
numbers as `ℚ`, and code that reads its environment (the current date, the
language-model reply, the JSON parser of the runtime) takes that
environment as explicit parameters.  Each definition carries a reference to
the source location it translates. -/

/-- JavaScript `String.prototype.toLowerCase`, restricted to ASCII. -/
def lowerStr (s : String) : String :=
  String.mk (s.data.map Char.toLower)

/-- JavaScript `String.prototype.trim`: drop whitespace from both ends. -/
def trimStr (s : String) : String :=
  String.mk (((s.data.dropWhile Char.isWhitespace).reverse.dropWhile Char.isWhitespace).reverse)

/-- Predicate `occurs sub l` is true when `sub` occurs as a contiguous run inside `l`. -/
def occurs (sub : List Char) : List Char → Bool
  | [] => sub.isEmpty
  | c :: rest => sub.isPrefixOf (c :: rest) || occurs sub rest

/-- JavaScript `s.includes(t)`: `t` occurs as a substring of `s`. -/
def strContains (s t : String) : Bool :=
  occurs t.data s.data

/-- JavaScript `s.startsWith(t)`. -/
def strStartsWith (s t : String) : Bool :=
  t.data.isPrefixOf s.data

theorem occurs_infix_iff (sub : List Char) : ∀ l : List Char, occurs sub l = true ↔ sub <:+: l
  | [] => by
    simp [occurs, List.isEmpty_iff, List.infix_nil]
  | c :: rest => by
    simp only [occurs, Bool.or_eq_true, List.isPrefixOf_iff_prefix,
      occurs_infix_iff sub rest, List.infix_cons_iff]

/-- The four funnel stages of the category-label reduction. -/
inductive Stage where
  | delivered
  | opened
  | clicked
  | adopted
deriving DecidableEq

/-- One raw result row handed to the funnel aggregator.  The JavaScript rows
are duck-typed: the aggregators probe the fields `category_1`, `customers`,
`total_customers` and `customers_1`, any of which may be missing. -/
structure ResultRow where
  category_1 : Option String
  customers : Option ℚ
  total_customers : Option ℚ
  customers_1 : Option ℚ

/-- JavaScript `a || b` on an optional number: a missing field and the
number `0` are falsy and fall through to `b`. -/
def jsOrQ : Option ℚ → ℚ → ℚ
  | none, b => b
  | some x, b => if x = 0 then b else x

/-- Reads `row.category_1?.toLowerCase() || ''` (shared by all aggregator
revisions). -/
def rowCategory (r : ResultRow) : String :=
  match r.category_1 with
  | none => ""
  | some s => lowerStr s

/-- Bucketed stage counts before the rates are derived. -/
@[ext] structure FunnelCounts where
  deliveries : ℚ
  opens : ℚ
  clicks : ℚ
  adoptions : ℚ
deriving DecidableEq

/-- Add a count to the bucket selected for a row (`acc.deliveries +=
customers` and friends); a row whose category matched no stage leaves the
accumulator unchanged. -/
def addToStage (acc : FunnelCounts) : Option Stage → ℚ → FunnelCounts
  | some .delivered, c => { acc with deliveries := acc.deliveries + c }
  | some .opened, c => { acc with opens := acc.opens + c }
  | some .clicked, c => { acc with clicks := acc.clicks + c }
  | some .adopted, c => { acc with adoptions := acc.adoptions + c }
  | none, _ => acc

/-- Condition `category.includes('deliver')`, the first branch condition of the
`prepareFunnelData` cascade. -/
def matchesDeliver (c : String) : Bool :=
  strContains c "deliver"

/-- Condition `category.includes('open')`, the second branch condition. -/
def matchesOpen (c : String) : Bool :=
  strContains c "open"

/-- Condition `category.includes('click')`, the third branch condition. -/
def matchesClick (c : String) : Bool :=
  strContains c "click"

/-- Condition `category.includes('adopt') || category.includes('convert') ||
category.includes('complete')`, the last branch condition. -/
def matchesAdopt (c : String) : Bool :=
  strContains c "adopt" || strContains c "convert" || strContains c "complete"

/-- The category dispatch chain of `prepareFunnelData`
(src/src/services/llmQueryService.ts lines 730-738): an
`if/else-if` cascade over case-insensitive substring tests, in the order
deliver, open, click, adopt-or-convert-or-complete. -/
def stageOfCat (category : String) : Option Stage :=
  if matchesDeliver category then some .delivered
  else if matchesOpen category then some .opened
  else if matchesClick category then some .clicked
  else if matchesAdopt category then some .adopted
  else none

/-- The eight-field record returned by `prepareFunnelData` in
src/src/services/llmQueryService.ts. -/
structure FunnelMetrics where
  deliveries : ℚ
  opens : ℚ
  clicks : ℚ
  adoptions : ℚ
  openRate : ℚ
  clickThroughRate : ℚ
  clickThroughOpenRate : ℚ
  adoptionRate : ℚ
deriving DecidableEq

namespace LLMQueryService

/-- Reads `row.customers || row.total_customers || row.customers_1 || 0`
(src/src/services/llmQueryService.ts line 726). -/
def rowCount (r : ResultRow) : ℚ :=
  jsOrQ r.customers (jsOrQ r.total_customers (jsOrQ r.customers_1 0))

/-- The `data.forEach` accumulation of `prepareFunnelData`
(src/src/services/llmQueryService.ts lines 714-739). -/
def funnelCounts (data : List ResultRow) : FunnelCounts :=
  data.foldl (fun acc row => addToStage acc (stageOfCat (rowCategory row)) (rowCount row)) ⟨0, 0, 0, 0⟩

/-- Function `prepareFunnelData` (src/src/services/llmQueryService.ts lines
713-756): bucket the rows, then derive the four rates, each diverted to `0`
when its denominator is not positive. -/
def prepareFunnelData (data : List ResultRow) : FunnelMetrics :=
  let f := funnelCounts data
  { deliveries := f.deliveries
    opens := f.opens
    clicks := f.clicks
    adoptions := f.adoptions
    openRate := if f.deliveries > 0 then f.opens / f.deliveries * 100 else 0
    clickThroughRate := if f.deliveries > 0 then f.clicks / f.deliveries * 100 else 0
    clickThroughOpenRate := if f.opens > 0 then f.clicks / f.opens * 100 else 0
    adoptionRate := if f.deliveries > 0 then f.adoptions / f.deliveries * 100 else 0 }

end LLMQueryService

namespace Part011

/-- The category dispatch chain of the `prepareFunnelData` revision in
src/unnamed/part_011 (lines 441-454); it tests `conversion` where the
src/src revision tests `convert`. -/
def stageOfCat (category : String) : Option Stage :=
  if strContains category "deliver" then some .delivered
  else if strContains category "open" then some .opened
  else if strContains category "click" then some .clicked
  else if strContains category "adopt" || strContains category "conversion" || strContains category "complete" then some .adopted
  else none

/-- Reads `row.total_customers || row.customers_1 || 0` (src/unnamed/part_011
line 443). -/
def rowCount (r : ResultRow) : ℚ :=
  jsOrQ r.total_customers (jsOrQ r.customers_1 0)

/-- The accumulation loop of the part_011 `prepareFunnelData` revision. -/
def funnelCounts (data : List ResultRow) : FunnelCounts :=
  data.foldl (fun acc row => addToStage acc (stageOfCat (rowCategory row)) (rowCount row)) ⟨0, 0, 0, 0⟩

/-- The record returned by the part_011 revision: the click rate is named
`clickRate`, and `adoptionRate` divides by clicks. -/
structure FunnelMetricsR where
  deliveries : ℚ
  opens : ℚ
  clicks : ℚ
  adoptions : ℚ
  openRate : ℚ
  clickRate : ℚ
  clickThroughOpenRate : ℚ
  adoptionRate : ℚ
deriving DecidableEq

/-- Function `prepareFunnelData` of src/unnamed/part_011 (lines 437-469):
`adoptionRate = clicks > 0 ? adoptions / clicks * 100 : 0`. -/
def prepareFunnelData (data : List ResultRow) : FunnelMetricsR :=
  let f := funnelCounts data
  { deliveries := f.deliveries
    opens := f.opens
    clicks := f.clicks
    adoptions := f.adoptions
    openRate := if f.deliveries > 0 then f.opens / f.deliveries * 100 else 0
    clickRate := if f.deliveries > 0 then f.clicks / f.deliveries * 100 else 0
    clickThroughOpenRate := if f.opens > 0 then f.clicks / f.opens * 100 else 0
    adoptionRate := if f.clicks > 0 then f.adoptions / f.clicks * 100 else 0 }

end Part011

/-- Per-row contribution to one bucket, for a given stage-dispatch and
count-extraction function (used to restate the `forEach` loops as sums). -/
def gcontrib (stf : String → Option Stage) (cnt : ResultRow → ℚ) (st : Stage) (r : ResultRow) : ℚ :=
  if stf (rowCategory r) = some st then cnt r else 0

theorem foldl_addToStage_eq (stf : String → Option Stage) (cnt : ResultRow → ℚ) :
    ∀ (data : List ResultRow) (acc : FunnelCounts),
      data.foldl (fun a r => addToStage a (stf (rowCategory r)) (cnt r)) acc =
        ⟨acc.deliveries + (data.map (gcontrib stf cnt .delivered)).sum,
         acc.opens + (data.map (gcontrib stf cnt .opened)).sum,
         acc.clicks + (data.map (gcontrib stf cnt .clicked)).sum,
         acc.adoptions + (data.map (gcontrib stf cnt .adopted)).sum⟩
  | [], acc => by simp
  | r :: rest, acc => by
    rw [List.foldl_cons, foldl_addToStage_eq stf cnt rest]
    rcases h : stf (rowCategory r) with _ | st
    · simp [addToStage, gcontrib, h]
    · cases st <;> simp [addToStage, gcontrib, h, add_assoc]

theorem LLMQueryService.funnelCounts_eq (data : List ResultRow) :
    LLMQueryService.funnelCounts data =
      ⟨(data.map (gcontrib stageOfCat LLMQueryService.rowCount .delivered)).sum,
       (data.map (gcontrib stageOfCat LLMQueryService.rowCount .opened)).sum,
       (data.map (gcontrib stageOfCat LLMQueryService.rowCount .clicked)).sum,
       (data.map (gcontrib stageOfCat LLMQueryService.rowCount .adopted)).sum⟩ := by
  rw [LLMQueryService.funnelCounts, foldl_addToStage_eq]
  simp

theorem Part011.funnelCounts_sum_eq (data : List ResultRow) :
    Part011.funnelCounts data =
      ⟨(data.map (gcontrib Part011.stageOfCat Part011.rowCount .delivered)).sum,
       (data.map (gcontrib Part011.stageOfCat Part011.rowCount .opened)).sum,
       (data.map (gcontrib Part011.stageOfCat Part011.rowCount .clicked)).sum,
       (data.map (gcontrib Part011.stageOfCat Part011.rowCount .adopted)).sum⟩ := by
  rw [Part011.funnelCounts, foldl_addToStage_eq]
  simp

theorem sum_gcontrib_nonneg (stf : String → Option Stage) (cnt : ResultRow → ℚ) (st : Stage)
    (data : List ResultRow) (h : ∀ r ∈ data, 0 ≤ cnt r) :
    0 ≤ (data.map (gcontrib stf cnt st)).sum := by
  refine List.sum_nonneg ?_
  intro x hx
  obtain ⟨r, hr, rfl⟩ := List.mem_map.1 hx
  unfold gcontrib
  split
  · exact h r hr
  · exact le_refl 0

theorem ite_pos_eq_ite_ne {d x : ℚ} (hd : 0 ≤ d) :
    (if d > 0 then x else 0) = if d = 0 then 0 else x := by
  rcases eq_or_lt_of_le hd with h | h
  · rw [← h]
    simp
  · rw [if_pos h, if_neg (ne_of_gt h)]

/-- A rate that lies between 0 and 100 inclusive. -/
def inRange (x : ℚ) : Prop :=
  0 ≤ x ∧ x ≤ 100

theorem rate_in_range {num den : ℚ} (hnum : 0 ≤ num) (hle : num ≤ den) :
    inRange (if den > 0 then num / den * 100 else 0) := by
  unfold inRange
  split
  · next h =>
    constructor
    · exact mul_nonneg (div_nonneg hnum (le_of_lt h)) (by norm_num)
    · have h1 : num / den ≤ 1 := (div_le_one h).2 hle
      calc num / den * 100 ≤ 1 * 100 := mul_le_mul_of_nonneg_right h1 (by norm_num)
        _ = 100 := one_mul 100
  · exact ⟨le_refl 0, by norm_num⟩

/-- Rows for the C1 counterexample: a funnel with 100 deliveries, 10 clicks
and 5 adoptions, in the field layout read by the part_011 revision. -/
def c1rows : List ResultRow :=
  [⟨some "delivered", none, some 100, none⟩,
   ⟨some "clicked", none, some 10, none⟩,
   ⟨some "adopted", none, some 5, none⟩]

/-- C1 counterexample: the `prepareFunnelData` revision at
src/unnamed/part_011 lines 456-468 — one of the two code locations the
claim is about — computes `adoptionRate` as adoptions/clicks × 100, not
adoptions/deliveries × 100: on a funnel with 100 deliveries, 10 clicks and
5 adoptions it returns 50, while the claimed formula gives 5. -/
theorem c1_counterexample :
    (Part011.prepareFunnelData c1rows).adoptionRate = 50 ∧
    (Part011.prepareFunnelData c1rows).adoptions /
        (Part011.prepareFunnelData c1rows).deliveries * 100 = 5 ∧
    (50 : ℚ) ≠ 5 := by
  have s1 : Part011.stageOfCat (rowCategory ⟨some "delivered", none, some 100, none⟩) = some Stage.delivered := by decide
  have s2 : Part011.stageOfCat (rowCategory ⟨some "clicked", none, some 10, none⟩) = some Stage.clicked := by decide
  have s3 : Part011.stageOfCat (rowCategory ⟨some "adopted", none, some 5, none⟩) = some Stage.adopted := by decide
  have h : Part011.funnelCounts c1rows = ⟨100, 0, 10, 5⟩ := by
    rw [Part011.funnelCounts]
    norm_num [c1rows, s1, s2, s3, addToStage, Part011.rowCount, jsOrQ]
  refine ⟨?_, ?_, by norm_num⟩
  · norm_num [Part011.prepareFunnelData, h]
  · norm_num [Part011.prepareFunnelData, h]

/-- C1 (amended): for rows with non-negative counts, the
src/src/services/llmQueryService.ts `prepareFunnelData` computes
openRate = opens/deliveries × 100, clickThroughRate = clicks/deliveries ×
100, clickThroughOpenRate = clicks/opens × 100 and adoptionRate =
adoptions/deliveries × 100, each exactly 0 when its denominator is 0;
the part_011 revision computes the same rates except that its click rate is
named clickRate and its adoptionRate divides adoptions by clicks (0 when
clicks is 0), not by deliveries. -/
theorem c1_rate_formulas (data : List ResultRow)
    (h1 : ∀ r ∈ data, 0 ≤ LLMQueryService.rowCount r)
    (h2 : ∀ r ∈ data, 0 ≤ Part011.rowCount r) :
    ((LLMQueryService.prepareFunnelData data).openRate =
      (if (LLMQueryService.prepareFunnelData data).deliveries = 0 then 0
       else (LLMQueryService.prepareFunnelData data).opens /
         (LLMQueryService.prepareFunnelData data).deliveries * 100)) ∧
    ((LLMQueryService.prepareFunnelData data).clickThroughRate =
      (if (LLMQueryService.prepareFunnelData data).deliveries = 0 then 0
       else (LLMQueryService.prepareFunnelData data).clicks /
         (LLMQueryService.prepareFunnelData data).deliveries * 100)) ∧
    ((LLMQueryService.prepareFunnelData data).clickThroughOpenRate =
      (if (LLMQueryService.prepareFunnelData data).opens = 0 then 0
       else (LLMQueryService.prepareFunnelData data).clicks /
         (LLMQueryService.prepareFunnelData data).opens * 100)) ∧
    ((LLMQueryService.prepareFunnelData data).adoptionRate =
      (if (LLMQueryService.prepareFunnelData data).deliveries = 0 then 0
       else (LLMQueryService.prepareFunnelData data).adoptions /
         (LLMQueryService.prepareFunnelData data).deliveries * 100)) ∧
    ((Part011.prepareFunnelData data).openRate =
      (if (Part011.prepareFunnelData data).deliveries = 0 then 0
       else (Part011.prepareFunnelData data).opens /
         (Part011.prepareFunnelData data).deliveries * 100)) ∧
    ((Part011.prepareFunnelData data).clickRate =
      (if (Part011.prepareFunnelData data).deliveries = 0 then 0
       else (Part011.prepareFunnelData data).clicks /
         (Part011.prepareFunnelData data).deliveries * 100)) ∧
    ((Part011.prepareFunnelData data).clickThroughOpenRate =
      (if (Part011.prepareFunnelData data).opens = 0 then 0
       else (Part011.prepareFunnelData data).clicks /
         (Part011.prepareFunnelData data).opens * 100)) ∧
    ((Part011.prepareFunnelData data).adoptionRate =
      (if (Part011.prepareFunnelData data).clicks = 0 then 0
       else (Part011.prepareFunnelData data).adoptions /
         (Part011.prepareFunnelData data).clicks * 100)) := by
  have e1 := LLMQueryService.funnelCounts_eq data
  have e2 := Part011.funnelCounts_sum_eq data
  have hd1 : 0 ≤ (LLMQueryService.funnelCounts data).deliveries := by
    rw [e1]; exact sum_gcontrib_nonneg _ _ _ _ h1
  have ho1 : 0 ≤ (LLMQueryService.funnelCounts data).opens := by
    rw [e1]; exact sum_gcontrib_nonneg _ _ _ _ h1
  have hd2 : 0 ≤ (Part011.funnelCounts data).deliveries := by
    rw [e2]; exact sum_gcontrib_nonneg _ _ _ _ h2
  have ho2 : 0 ≤ (Part011.funnelCounts data).opens := by
    rw [e2]; exact sum_gcontrib_nonneg _ _ _ _ h2
  have hc2 : 0 ≤ (Part011.funnelCounts data).clicks := by
    rw [e2]; exact sum_gcontrib_nonneg _ _ _ _ h2
  refine ⟨?_, ?_, ?_, ?_, ?_, ?_, ?_, ?_⟩ <;>
    simp only [LLMQueryService.prepareFunnelData, Part011.prepareFunnelData]
  · exact ite_pos_eq_ite_ne hd1
  · exact ite_pos_eq_ite_ne hd1
  · exact ite_pos_eq_ite_ne ho1
  · exact ite_pos_eq_ite_ne hd1
  · exact ite_pos_eq_ite_ne hd2
  · exact ite_pos_eq_ite_ne hd2
  · exact ite_pos_eq_ite_ne ho2
  · exact ite_pos_eq_ite_ne hc2

/-- C1 witness: the amended rate formulas instantiated on the concrete
three-row funnel `c1rows`, whose counts are all non-negative. -/
theorem c1_rate_formulas_witness :
    (Part011.prepareFunnelData c1rows).adoptionRate =
      (if (Part011.prepareFunnelData c1rows).clicks = 0 then 0
       else (Part011.prepareFunnelData c1rows).adoptions /
         (Part011.prepareFunnelData c1rows).clicks * 100) :=
  (c1_rate_formulas c1rows (by decide) (by decide)).2.2.2.2.2.2.2

/-- Rows for the C3 counterexample: more opens than deliveries. -/
def c3rows : List ResultRow :=
  [⟨some "delivered", some 1, none, none⟩,
   ⟨some "opened", some 2, none, none⟩]

/-- C3 counterexample: on rows with the non-negative counts 1 delivery and
2 opens, `prepareFunnelData` returns openRate = 200, outside [0,100] — the
code never clamps and the funnel monotonicity the claim presumes is not
checked. -/
theorem c3_counterexample :
    (0 : ℚ) ≤ 1 ∧ (0 : ℚ) ≤ 2 ∧
    (LLMQueryService.prepareFunnelData c3rows).openRate = 200 ∧
    ¬ (LLMQueryService.prepareFunnelData c3rows).openRate ≤ 100 := by
  have s1 : stageOfCat (rowCategory ⟨some "delivered", some 1, none, none⟩) = some Stage.delivered := by decide
  have s2 : stageOfCat (rowCategory ⟨some "opened", some 2, none, none⟩) = some Stage.opened := by decide
  have h : LLMQueryService.funnelCounts c3rows = ⟨1, 2, 0, 0⟩ := by
    rw [LLMQueryService.funnelCounts]
    norm_num [c3rows, s1, s2, addToStage, LLMQueryService.rowCount, jsOrQ]
  have hr : (LLMQueryService.prepareFunnelData c3rows).openRate = 200 := by
    simp [LLMQueryService.prepareFunnelData, h]
    norm_num
  exact ⟨by norm_num, by norm_num, hr, by rw [hr]; norm_num⟩

/-- C3 (amended): for rows with non-negative counts, every rate of
`prepareFunnelData` lies in [0,100] provided the bucketed sums are
funnel-monotone (opens ≤ deliveries, clicks ≤ opens, adoptions ≤
deliveries); without that monotonicity a rate can exceed 100. -/
theorem c3_rates_in_range (data : List ResultRow)
    (h0 : ∀ r ∈ data, 0 ≤ LLMQueryService.rowCount r)
    (hmo : (LLMQueryService.prepareFunnelData data).opens ≤
      (LLMQueryService.prepareFunnelData data).deliveries)
    (hmc : (LLMQueryService.prepareFunnelData data).clicks ≤
      (LLMQueryService.prepareFunnelData data).opens)
    (hma : (LLMQueryService.prepareFunnelData data).adoptions ≤
      (LLMQueryService.prepareFunnelData data).deliveries) :
    inRange (LLMQueryService.prepareFunnelData data).openRate ∧
    inRange (LLMQueryService.prepareFunnelData data).clickThroughRate ∧
    inRange (LLMQueryService.prepareFunnelData data).clickThroughOpenRate ∧
    inRange (LLMQueryService.prepareFunnelData data).adoptionRate := by
  have e1 := LLMQueryService.funnelCounts_eq data
  have ho : 0 ≤ (LLMQueryService.funnelCounts data).opens := by
    rw [e1]; exact sum_gcontrib_nonneg _ _ _ _ h0
  have hc : 0 ≤ (LLMQueryService.funnelCounts data).clicks := by
    rw [e1]; exact sum_gcontrib_nonneg _ _ _ _ h0
  have ha : 0 ≤ (LLMQueryService.funnelCounts data).adoptions := by
    rw [e1]; exact sum_gcontrib_nonneg _ _ _ _ h0
  simp only [LLMQueryService.prepareFunnelData] at hmo hmc hma ⊢
  exact ⟨rate_in_range ho hmo, rate_in_range hc (le_trans hmc hmo),
    rate_in_range hc hmc, rate_in_range ha hma⟩

/-- Rows for the C3 witness: a monotone funnel 100 → 40 → 10 → 2. -/
def c3wrows : List ResultRow :=
  [⟨some "delivered", some 100, none, none⟩,
   ⟨some "opened", some 40, none, none⟩,
   ⟨some "clicked", some 10, none, none⟩,
   ⟨some "adopted", some 2, none, none⟩]

/-- C3 witness: the range property instantiated on the concrete monotone
funnel `c3wrows`. -/
theorem c3_rates_in_range_witness :
    inRange (LLMQueryService.prepareFunnelData c3wrows).openRate ∧
    inRange (LLMQueryService.prepareFunnelData c3wrows).clickThroughRate ∧
    inRange (LLMQueryService.prepareFunnelData c3wrows).clickThroughOpenRate ∧
    inRange (LLMQueryService.prepareFunnelData c3wrows).adoptionRate := by
  have s1 : stageOfCat (rowCategory ⟨some "delivered", some 100, none, none⟩) = some Stage.delivered := by decide
  have s2 : stageOfCat (rowCategory ⟨some "opened", some 40, none, none⟩) = some Stage.opened := by decide
  have s3 : stageOfCat (rowCategory ⟨some "clicked", some 10, none, none⟩) = some Stage.clicked := by decide
  have s4 : stageOfCat (rowCategory ⟨some "adopted", some 2, none, none⟩) = some Stage.adopted := by decide
  have h : LLMQueryService.funnelCounts c3wrows = ⟨100, 40, 10, 2⟩ := by
    rw [LLMQueryService.funnelCounts]
    norm_num [c3wrows, s1, s2, s3, s4, addToStage, LLMQueryService.rowCount, jsOrQ]
  refine c3_rates_in_range c3wrows (by decide) ?_ ?_ ?_ <;>
    simp [LLMQueryService.prepareFunnelData, h] <;> norm_num

/-- C8: funnel aggregation is order-independent — permuting the input rows
leaves all four stage counts and all four derived rates of
`prepareFunnelData` unchanged. -/
theorem c8_order_independent (l1 l2 : List ResultRow) (h : l1.Perm l2) :
    LLMQueryService.prepareFunnelData l1 = LLMQueryService.prepareFunnelData l2 := by
  have hc : LLMQueryService.funnelCounts l1 = LLMQueryService.funnelCounts l2 := by
    rw [LLMQueryService.funnelCounts_eq, LLMQueryService.funnelCounts_eq]
    simp only [FunnelCounts.mk.injEq]
    exact ⟨(h.map _).sum_eq, (h.map _).sum_eq, (h.map _).sum_eq, (h.map _).sum_eq⟩
  simp [LLMQueryService.prepareFunnelData, hc]

/-- C8 witness: swapping two concrete rows leaves the metrics unchanged. -/
theorem c8_order_independent_witness :
    LLMQueryService.prepareFunnelData
      [⟨some "delivered", some 7, none, none⟩, ⟨some "opened", some 3, none, none⟩] =
    LLMQueryService.prepareFunnelData
      [⟨some "opened", some 3, none, none⟩, ⟨some "delivered", some 7, none, none⟩] :=
  c8_order_independent _ _ (List.Perm.swap _ _ _)

theorem stageOfCat_cases (c : String)
    (h : (matchesDeliver c).toNat + (matchesOpen c).toNat +
      (matchesClick c).toNat + (matchesAdopt c).toNat ≤ 1) :
    (stageOfCat c = some .delivered ↔ matchesDeliver c = true) ∧
    (stageOfCat c = some .opened ↔ matchesOpen c = true) ∧
    (stageOfCat c = some .clicked ↔ matchesClick c = true) ∧
    (stageOfCat c = some .adopted ↔ matchesAdopt c = true) := by
  cases hdl : matchesDeliver c <;> cases hop : matchesOpen c <;>
    cases hcl : matchesClick c <;> cases had : matchesAdopt c <;>
    simp_all [stageOfCat]

theorem gcontrib_eq_of_iff {st : Stage} {b : Bool} (r : ResultRow)
    (hiff : stageOfCat (rowCategory r) = some st ↔ b = true) :
    gcontrib stageOfCat LLMQueryService.rowCount st r =
      if b then LLMQueryService.rowCount r else 0 := by
  cases b <;> simp [gcontrib, hiff]

/-- Rows of the spec's end-to-end scenario 1. -/
def c4rows : List ResultRow :=
  [⟨some "Deliveries", some 100, none, none⟩,
   ⟨some "Opens", some 40, none, none⟩,
   ⟨some "Clicks", some 10, none, none⟩]

/-- C4: on rows whose category label matches at most one stage-keyword
group, `prepareFunnelData` buckets each row by case-insensitive substring
match (deliver / open / click / adopt-convert-complete), sums the counts
per bucket and ignores unmatched categories; and on the scenario rows
Deliveries 100, Opens 40, Clicks 10 it returns the metrics
100/40/10/0 with rates 40, 10, 25, 0. -/
theorem c4_bucketing (data : List ResultRow)
    (h : ∀ r ∈ data, (matchesDeliver (rowCategory r)).toNat +
      (matchesOpen (rowCategory r)).toNat + (matchesClick (rowCategory r)).toNat +
      (matchesAdopt (rowCategory r)).toNat ≤ 1) :
    ((LLMQueryService.prepareFunnelData data).deliveries =
      (data.map (fun r => if matchesDeliver (rowCategory r) then LLMQueryService.rowCount r else 0)).sum) ∧
    ((LLMQueryService.prepareFunnelData data).opens =
      (data.map (fun r => if matchesOpen (rowCategory r) then LLMQueryService.rowCount r else 0)).sum) ∧
    ((LLMQueryService.prepareFunnelData data).clicks =
      (data.map (fun r => if matchesClick (rowCategory r) then LLMQueryService.rowCount r else 0)).sum) ∧
    ((LLMQueryService.prepareFunnelData data).adoptions =
      (data.map (fun r => if matchesAdopt (rowCategory r) then LLMQueryService.rowCount r else 0)).sum) ∧
    LLMQueryService.prepareFunnelData c4rows = ⟨100, 40, 10, 0, 40, 10, 25, 0⟩ := by
  have e := LLMQueryService.funnelCounts_eq data
  have key : ∀ (st : Stage) (sel : String → Bool),
      (∀ r ∈ data, stageOfCat (rowCategory r) = some st ↔ sel (rowCategory r) = true) →
      (data.map (gcontrib stageOfCat LLMQueryService.rowCount st)).sum =
        (data.map (fun r => if sel (rowCategory r) then LLMQueryService.rowCount r else 0)).sum := by
    intro st sel hsel
    exact congrArg List.sum (List.map_congr_left fun r hr => gcontrib_eq_of_iff r (hsel r hr))
  have s1 : stageOfCat (rowCategory ⟨some "Deliveries", some 100, none, none⟩) = some Stage.delivered := by decide
  have s2 : stageOfCat (rowCategory ⟨some "Opens", some 40, none, none⟩) = some Stage.opened := by decide
  have s3 : stageOfCat (rowCategory ⟨some "Clicks", some 10, none, none⟩) = some Stage.clicked := by decide
  have hsc : LLMQueryService.funnelCounts c4rows = ⟨100, 40, 10, 0⟩ := by
    rw [LLMQueryService.funnelCounts]
    norm_num [c4rows, s1, s2, s3, addToStage, LLMQueryService.rowCount, jsOrQ]
  refine ⟨?_, ?_, ?_, ?_, ?_⟩
  · simp only [LLMQueryService.prepareFunnelData, e]
    exact key _ _ fun r hr => (stageOfCat_cases _ (h r hr)).1
  · simp only [LLMQueryService.prepareFunnelData, e]
    exact key _ _ fun r hr => (stageOfCat_cases _ (h r hr)).2.1
  · simp only [LLMQueryService.prepareFunnelData, e]
    exact key _ _ fun r hr => (stageOfCat_cases _ (h r hr)).2.2.1
  · simp only [LLMQueryService.prepareFunnelData, e]
    exact key _ _ fun r hr => (stageOfCat_cases _ (h r hr)).2.2.2
  · simp only [LLMQueryService.prepareFunnelData, hsc, FunnelMetrics.mk.injEq]
    norm_num

/-- C4 witness: the bucketing property instantiated on the scenario rows,
each of which matches exactly one stage-keyword group. -/
theorem c4_bucketing_witness :
    LLMQueryService.prepareFunnelData c4rows = ⟨100, 40, 10, 0, 40, 10, 25, 0⟩ :=
  (c4_bucketing c4rows (by decide)).2.2.2.2

theorem sum_map_add4 (l : List ResultRow) (f g h k : ResultRow → ℚ) :
    (l.map f).sum + (l.map g).sum + (l.map h).sum + (l.map k).sum =
      (l.map (fun r => f r + g r + h r + k r)).sum := by
  induction l with
  | nil => simp
  | cons r rest ih =>
    simp only [List.map_cons, List.sum_cons, ← ih]
    ring

/-- C10: the category-label reduction applies its stage tests in the fixed
order deliver, open, click, adopt/convert/complete with the first match
winning, so a label containing several stage keywords counts only toward
the earliest matching stage, and a row contributes its count to exactly one
bucket — the four stage totals of `prepareFunnelData` together count each
row at most once. -/
theorem c10_first_match_wins :
    (∀ c, matchesDeliver c = true → stageOfCat c = some Stage.delivered) ∧
    (∀ c, matchesDeliver c = false → matchesOpen c = true →
      stageOfCat c = some Stage.opened) ∧
    (∀ c, matchesDeliver c = false → matchesOpen c = false →
      matchesClick c = true → stageOfCat c = some Stage.clicked) ∧
    (∀ c, matchesDeliver c = false → matchesOpen c = false →
      matchesClick c = false → matchesAdopt c = true →
      stageOfCat c = some Stage.adopted) ∧
    (∀ c, matchesDeliver c = false → matchesOpen c = false →
      matchesClick c = false → matchesAdopt c = false → stageOfCat c = none) ∧
    stageOfCat "opened and clicked" = some Stage.opened ∧
    (∀ data : List ResultRow,
      (LLMQueryService.prepareFunnelData data).deliveries +
        (LLMQueryService.prepareFunnelData data).opens +
        (LLMQueryService.prepareFunnelData data).clicks +
        (LLMQueryService.prepareFunnelData data).adoptions =
      (data.map (fun r => if (stageOfCat (rowCategory r)).isSome
        then LLMQueryService.rowCount r else 0)).sum) := by
  refine ⟨?_, ?_, ?_, ?_, ?_, by decide, ?_⟩
  · intro c h1
    simp [stageOfCat, h1]
  · intro c h1 h2
    simp [stageOfCat, h1, h2]
  · intro c h1 h2 h3
    simp [stageOfCat, h1, h2, h3]
  · intro c h1 h2 h3 h4
    simp [stageOfCat, h1, h2, h3, h4]
  · intro c h1 h2 h3 h4
    simp [stageOfCat, h1, h2, h3, h4]
  · intro data
    have e := LLMQueryService.funnelCounts_eq data
    simp only [LLMQueryService.prepareFunnelData, e]
    rw [sum_map_add4]
    refine congrArg List.sum (List.map_congr_left fun r _ => ?_)
    rcases hstage : stageOfCat (rowCategory r) with _ | st
    · simp [gcontrib, hstage]
    · cases st <;> simp [gcontrib, hstage]

/-- C10 witness: the first-match rule instantiated on a concrete label
containing both the open and the click keyword: it is counted toward opens
only. -/
theorem c10_first_match_wins_witness :
    stageOfCat "opened and clicked" = some Stage.opened ∧
    stageOfCat "clicked then opened" = some Stage.opened :=
  ⟨c10_first_match_wins.2.2.2.2.2.1,
   c10_first_match_wins.2.1 "clicked then opened" (by decide) (by decide)⟩

/-- Table `getEnhancedProgramMapping` (src/src/services/llmQueryService.ts lines
35-47): the static one-to-many program alias table, as an association list
in source order. -/
def getEnhancedProgramMapping : List (String × List String) :=
  [("ASG", ["ASG Primary Path", "MCG ASG Path", "PMax ASG Path"]),
   ("ASG Primary", ["ASG Primary Path"]),
   ("ASG Primary Path", ["ASG Primary Path"]),
   ("MCG ASG", ["MCG ASG Path"]),
   ("MCG ASG Path", ["MCG ASG Path"]),
   ("PMax ASG", ["PMax ASG Path"]),
   ("PMax ASG Path", ["PMax ASG Path"]),
   ("LPW", ["LPW Path"]),
   ("LPW Path", ["LPW Path"])]

/-- JavaScript property lookup `mapping[name]` on the alias table. -/
def resolveProgram (name : String) : Option (List String) :=
  (getEnhancedProgramMapping.find? (fun p => p.1 == name)).map (fun p => p.2)

/-- C7: in the one-to-many program alias table, the umbrella alias `ASG`
resolves to exactly the three canonical sub-program names, and every
already-canonical program name resolves to exactly itself. -/
theorem c7_alias_fanout :
    resolveProgram "ASG" = some ["ASG Primary Path", "MCG ASG Path", "PMax ASG Path"] ∧
    resolveProgram "ASG Primary Path" = some ["ASG Primary Path"] ∧
    resolveProgram "MCG ASG Path" = some ["MCG ASG Path"] ∧
    resolveProgram "PMax ASG Path" = some ["PMax ASG Path"] ∧
    resolveProgram "LPW Path" = some ["LPW Path"] := by
  decide

/-- A word character for word-boundary matching: letter, digit or
underscore. -/
def isWordChar (c : Char) : Bool :=
  c.isAlphanum || c == '_'

/-- Boundary test on the character preceding a candidate occurrence
(start of string counts as a boundary). -/
def boundaryBefore : Option Char → Bool
  | none => true
  | some p => !isWordChar p

/-- Boundary test on the character following a candidate occurrence
(end of string counts as a boundary). -/
def boundaryAfter : List Char → Bool
  | [] => true
  | d :: _ => !isWordChar d

/-- Scan for an occurrence of `kw` delimited by word boundaries, carrying
the previously seen character. -/
def wordOccursAux (kw : List Char) : Option Char → List Char → Bool
  | _, [] => false
  | prev, c :: rest =>
    (boundaryBefore prev && kw.isPrefixOf (c :: rest) && boundaryAfter ((c :: rest).drop kw.length))
      || wordOccursAux kw (some c) rest

/-- Tests that `kw` occurs in `s` as a whole word (word-boundary match).
This formalizes the check the claim describes — what part_002's pattern
would compute had it been written with PostgreSQL's `\y` word-boundary
constraint; `dbValidate` below models what the deployed pattern actually
computes. -/
def containsWord (s kw : String) : Bool :=
  wordOccursAux kw.data none s.data

/-- The forbidden-keyword list of the execute-query edge function
(src/unnamed/part_000 line 34), in source order; `grant` and `revoke` are
absent. -/
def forbiddenKeywordsEdge : List String :=
  ["drop", "delete", "insert", "update", "alter", "create", "truncate"]

/-- The keyword alternation of the `execute_safe_query` database function
(src/unnamed/part_002 line 20). -/
def forbiddenKeywordsDb : List String :=
  ["insert", "update", "delete", "drop", "create", "alter", "truncate", "grant", "revoke"]

/-- The validation prefix of the execute-query edge function
(src/unnamed/part_000 lines 26-40): trim, require the lowercased statement
to start with `select`, then throw on the first forbidden keyword that
occurs as a plain substring (`queryLower.includes(keyword)`).  An `ok`
result models reaching the `execute_safe_query` rpc call; an `error`
models the thrown exception. -/
def edgeValidate (query : String) : Except String Unit :=
  let sanitizedQuery := trimStr query
  if !strStartsWith (lowerStr sanitizedQuery) "select" then
    Except.error "Only SELECT queries are allowed"
  else
    match forbiddenKeywordsEdge.find? (fun kw => strContains (lowerStr sanitizedQuery) kw) with
    | some kw => Except.error ("Forbidden keyword detected: " ++ kw)
    | none => Except.ok ()

/-- The validation prefix of `public.execute_safe_query`
(src/unnamed/part_002 lines 10-22): `clean_query := lower(trim(query_text))`
must match `'select%'`, and must not match the pattern
`~* '\b(insert|...|revoke)\b'`.  In PostgreSQL's regex dialect `\b` is the
backspace character-entry escape, not a word boundary (that is spelled
`\y`), so the pattern matches exactly when some keyword occurs wrapped in
literal backspace characters (U+0008); on ordinary SQL text the keyword
clause never fires.  An `ok` result models reaching the `EXECUTE`; an
`error` models `RAISE EXCEPTION`. -/
def dbValidate (query_text : String) : Except String Unit :=
  let clean_query := lowerStr (trimStr query_text)
  if !strStartsWith clean_query "select" then
    Except.error "Only SELECT queries are allowed"
  else if forbiddenKeywordsDb.any
      (fun kw => strContains clean_query ("\u0008" ++ kw ++ "\u0008")) then
    Except.error "Query contains forbidden keywords"
  else
    Except.ok ()

/-- C2 counterexample: neither layer implements the single check the claim
states.  `select updated_at from t` contains no forbidden keyword as a
whole word, yet the requesting layer rejects it (substring match on
`update`); `select grant from t` contains the whole word `grant`, yet the
requesting layer accepts it (its list omits grant and revoke) and the
executing layer also accepts — and executes — it, because PostgreSQL reads
the pattern's `\b` as a backspace escape: the keyword clause only fires on
a keyword wrapped in literal backspace characters, as the last conjunct
shows. -/
theorem c2_counterexample :
    edgeValidate "select updated_at from t" = Except.error "Forbidden keyword detected: update" ∧
    dbValidate "select updated_at from t" = Except.ok () ∧
    forbiddenKeywordsDb.all
      (fun kw => !containsWord (lowerStr (trimStr "select updated_at from t")) kw) = true ∧
    edgeValidate "select grant from t" = Except.ok () ∧
    containsWord (lowerStr (trimStr "select grant from t")) "grant" = true ∧
    dbValidate "select grant from t" = Except.ok () ∧
    dbValidate "select \u0008drop\u0008 from t" = Except.error "Query contains forbidden keywords" :=
  ⟨rfl, rfl, by decide, rfl, by decide, rfl, rfl⟩

theorem edgeValidate_ok_iff (q : String) :
    edgeValidate q = Except.ok () ↔
      (strStartsWith (lowerStr (trimStr q)) "select" = true ∧
       ∀ kw ∈ forbiddenKeywordsEdge, strContains (lowerStr (trimStr q)) kw = false) := by
  unfold edgeValidate
  cases hs : strStartsWith (lowerStr (trimStr q)) "select" with
  | false =>
    simp [hs]
  | true =>
    rcases hf : forbiddenKeywordsEdge.find? (fun kw => strContains (lowerStr (trimStr q)) kw)
      with _ | kw
    · simp only [hs, Bool.not_true, Bool.false_eq_true, if_false, hf]
      constructor
      · intro _
        refine ⟨trivial, fun kw hkw => ?_⟩
        have := List.find?_eq_none.1 hf kw hkw
        simpa using this
      · intro _
        trivial
    · simp only [hs, Bool.not_true, Bool.false_eq_true, if_false, hf]
      constructor
      · intro h
        cases h
      · rintro ⟨-, hall⟩
        have h1 := List.find?_some hf
        have h2 := List.mem_of_find?_eq_some hf
        rw [hall kw h2] at h1
        cases h1

theorem dbValidate_ok_iff (q : String) :
    dbValidate q = Except.ok () ↔
      (strStartsWith (lowerStr (trimStr q)) "select" = true ∧
       ∀ kw ∈ forbiddenKeywordsDb,
         strContains (lowerStr (trimStr q)) ("\u0008" ++ kw ++ "\u0008") = false) := by
  unfold dbValidate
  cases hs : strStartsWith (lowerStr (trimStr q)) "select" with
  | false =>
    simp [hs]
  | true =>
    cases ha : forbiddenKeywordsDb.any
        (fun kw => strContains (lowerStr (trimStr q)) ("\u0008" ++ kw ++ "\u0008")) with
    | true =>
      simp only [hs, Bool.not_true, Bool.false_eq_true, if_false, ha, if_true]
      constructor
      · intro h
        cases h
      · rintro ⟨-, hall⟩
        obtain ⟨kw, hkw, hck⟩ := List.any_eq_true.1 ha
        rw [hall kw hkw] at hck
        cases hck
    | false =>
      simp only [hs, Bool.not_true, Bool.false_eq_true, if_false, ha, if_true]
      constructor
      · intro _
        refine ⟨trivial, fun kw hkw => ?_⟩
        have := List.any_eq_false.1 ha kw hkw
        simpa using this
      · intro _
        trivial

theorem dbValidate_inert (q : String)
    (hnb : ∀ c ∈ (lowerStr (trimStr q)).data, c ≠ '\u0008') :
    dbValidate q = Except.ok () ↔
      strStartsWith (lowerStr (trimStr q)) "select" = true := by
  rw [dbValidate_ok_iff]
  constructor
  · exact fun h => h.1
  · intro h
    refine ⟨h, fun kw hkw => ?_⟩
    cases hcc : strContains (lowerStr (trimStr q)) ("\u0008" ++ kw ++ "\u0008") with
    | false => rfl
    | true =>
      have hinf := (occurs_infix_iff _ _).1 hcc
      have hbs : '\u0008' ∈ ("\u0008" ++ kw ++ "\u0008").data := by
        rw [String.data_append]
        exact List.mem_append.2 (Or.inr (by decide))
      exact absurd rfl (hnb '\u0008' (hinf.subset hbs))

/-- C2 (amended): each layer rejects exactly the statements failing its
own check, and a rejected statement errors before reaching execution —
but neither layer performs the claimed whole-word check.  The requesting
layer accepts a statement iff its trimmed, lowercased form starts with
`select` and contains none of its seven keywords (drop, delete, insert,
update, alter, create, truncate) as a plain substring.  The executing
layer accepts iff the same prefix holds and none of its nine keywords
occurs wrapped in literal backspace characters — PostgreSQL reads the
pattern's `\b` as a backspace escape, not a word boundary — so on any
statement free of backspace characters its keyword clause is inert and
only the `select` prefix is enforced. -/
theorem c2_validators (q : String) :
    (edgeValidate q = Except.ok () ↔
      (strStartsWith (lowerStr (trimStr q)) "select" = true ∧
       ∀ kw ∈ forbiddenKeywordsEdge, strContains (lowerStr (trimStr q)) kw = false)) ∧
    (dbValidate q = Except.ok () ↔
      (strStartsWith (lowerStr (trimStr q)) "select" = true ∧
       ∀ kw ∈ forbiddenKeywordsDb,
         strContains (lowerStr (trimStr q)) ("\u0008" ++ kw ++ "\u0008") = false)) ∧
    ((∀ c ∈ (lowerStr (trimStr q)).data, c ≠ '\u0008') →
      (dbValidate q = Except.ok () ↔
        strStartsWith (lowerStr (trimStr q)) "select" = true)) :=
  ⟨edgeValidate_ok_iff q, dbValidate_ok_iff q, dbValidate_inert q⟩

/-- C2 witness: the characterization instantiated on concrete statements —
one accepted at both layers, and one containing the whole words `grant`
and `revoke` that the executing layer nevertheless accepts. -/
theorem c2_validators_witness :
    edgeValidate "select category_1 from t" = Except.ok () ∧
    dbValidate "select category_1 from t" = Except.ok () ∧
    dbValidate "select grant, revoke from t" = Except.ok () :=
  ⟨(c2_validators "select category_1 from t").1.mpr
    ⟨by decide, by decide⟩,
   (c2_validators "select category_1 from t").2.1.mpr
    ⟨by decide, by decide⟩,
   ((c2_validators "select grant, revoke from t").2.2 (by decide)).mpr (by decide)⟩

/-- The `QueryPlan` record built by `analyzeQuery`
(src/src/services/llmQueryService.ts lines 371-378); the filter map is an
association list. -/
structure QueryPlan where
  intent : String
  entities : List String
  filters : List (String × String)
  sqlQuery : String
  expectedVisualization : String
  explanation : String

/-- The hardcoded fallback plan of the `analyzeQuery` catch branch
(src/src/services/llmQueryService.ts lines 601-608): the three ASG
programs in the Americas region with a known-good SELECT statement. -/
def fallbackPlan (query : String) : QueryPlan :=
  { intent := "Funnel analysis for: " ++ query
    entities := ["ASG", "Americas"]
    filters := [("program", "ASG"), ("region", "Americas")]
    sqlQuery := "SELECT category_1, SUM(customers_1) as customers FROM \"sample_engagement_data\" WHERE program_name_1 IN ('ASG Primary Path', 'MCG ASG Path', 'PMax ASG Path') AND acq_region_1 = 'Americas' GROUP BY category_1 ORDER BY category_1"
    expectedVisualization := "funnel"
    explanation := "Fallback: Showing ASG funnel metrics in Americas" }

/-- Models `response.match(/\x7b[\s\S]*\x7d/)`: the greedy brace-delimited span,
running from the first opening brace that has a closing brace after it to
the last closing brace of the string; `none` when no such span exists. -/
def braceSpan (cs : List Char) : Option (List Char) :=
  let fromBrace := cs.dropWhile (fun c => !(c == '{'))
  let upToLast := (fromBrace.reverse.dropWhile (fun c => !(c == '}'))).reverse
  match upToLast with
  | [] => none
  | l => some l

/-- Models `const cleanResponse = jsonMatch ? jsonMatch[0] : response`
(src/src/services/llmQueryService.ts lines 590-591). -/
def extractJson (response : String) : String :=
  match braceSpan response.data with
  | some span => String.mk span
  | none => response

/-- The decision structure of `analyzeQuery`
(src/src/services/llmQueryService.ts lines 585-610).  The language-model
call is passed in as `llmResponse` (`Except.error` models a rejected
`callLLM` promise) and the runtime JSON parser as `parse` (`none` models a
`JSON.parse` exception).  The `try` block extracts the brace span, parses
it and forces `expectedVisualization` to `funnel`; any failure lands in
the `catch`, which returns the hardcoded fallback plan instead of
rethrowing. -/
def analyzeQueryResult (query : String) (llmResponse : Except String String)
    (parse : String → Option QueryPlan) : QueryPlan :=
  match llmResponse with
  | Except.error _ => fallbackPlan query
  | Except.ok response =>
    match parse (extractJson response) with
    | none => fallbackPlan query
    | some plan => { plan with expectedVisualization := "funnel" }

/-- C9: `analyzeQuery` never propagates a failure — whenever the
language-model call fails, or its reply does not parse as the expected
JSON structure, the result is exactly the hardcoded default plan: the
three ASG programs in the Americas region with a known-good SELECT
statement. -/
theorem c9_fallback_on_failure (query : String) (llmResponse : Except String String)
    (parse : String → Option QueryPlan)
    (h : (∃ e, llmResponse = Except.error e) ∨
      (∃ r, llmResponse = Except.ok r ∧ parse (extractJson r) = none)) :
    analyzeQueryResult query llmResponse parse = fallbackPlan query ∧
    (analyzeQueryResult query llmResponse parse).entities = ["ASG", "Americas"] ∧
    (analyzeQueryResult query llmResponse parse).sqlQuery =
      "SELECT category_1, SUM(customers_1) as customers FROM \"sample_engagement_data\" WHERE program_name_1 IN ('ASG Primary Path', 'MCG ASG Path', 'PMax ASG Path') AND acq_region_1 = 'Americas' GROUP BY category_1 ORDER BY category_1" := by
  have hmain : analyzeQueryResult query llmResponse parse = fallbackPlan query := by
    rcases h with ⟨e, rfl⟩ | ⟨r, rfl, hp⟩
    · rfl
    · simp [analyzeQueryResult, hp]
  refine ⟨hmain, by rw [hmain]; rfl, by rw [hmain]; rfl⟩

/-- C9 witness: a reply with no parsable JSON object falls back to the
default plan. -/
theorem c9_fallback_on_failure_witness :
    analyzeQueryResult "show the funnel" (Except.ok "sorry, no JSON here") (fun _ => none) =
      fallbackPlan "show the funnel" :=
  (c9_fallback_on_failure "show the funnel" (Except.ok "sorry, no JSON here") (fun _ => none)
    (Or.inr ⟨"sorry, no JSON here", rfl, rfl⟩)).1

/-- The month-to-quarter table of ChatBot.tsx (lines 30-43), in source
insertion order, which is also the iteration order of the lookup loop. -/
def MONTH_TO_QUARTER : List (String × String) :=
  [("january", "Q1"), ("jan", "Q1"), ("february", "Q1"), ("feb", "Q1"),
   ("march", "Q1"), ("mar", "Q1"), ("april", "Q2"), ("apr", "Q2"),
   ("may", "Q2"), ("june", "Q2"), ("jun", "Q2"), ("july", "Q3"),
   ("jul", "Q3"), ("august", "Q3"), ("aug", "Q3"), ("september", "Q3"),
   ("sep", "Q3"), ("sept", "Q3"), ("october", "Q4"), ("oct", "Q4"),
   ("november", "Q4"), ("nov", "Q4"), ("december", "Q4"), ("dec", "Q4")]

/-- Function `getCurrentQuarter` (ChatBot.tsx lines 57-63):
`${year}-Q${Math.ceil(month/3)}` for a month numbered 1-12. -/
def getCurrentQuarter (nowYear nowMonth : ℕ) : String :=
  toString nowYear ++ "-Q" ++ toString ((nowMonth + 2) / 3)

/-- A digit accepted by the quarter pattern `[1-4]`. -/
def isQDigit (c : Char) : Bool :=
  c == '1' || c == '2' || c == '3' || c == '4'

/-- The alternative `q([1-4])` of the quarter pattern, tried at one
position. -/
def qAltShort : List Char → Option Char
  | c :: d :: _ => if c == 'q' && isQDigit d then some d else none
  | _ => none

/-- The alternative `quarter\s*([1-4])` of the quarter pattern, tried at
one position. -/
def qAltLong (l : List Char) : Option Char :=
  if ("quarter".data).isPrefixOf l then
    match (l.drop 7).dropWhile Char.isWhitespace with
    | d :: _ => if isQDigit d then some d else none
    | [] => none
  else none

/-- Models `lowerQuery.match(/q([1-4])|quarter\s*([1-4])/)`: the leftmost
position at which either alternative matches, the first alternative tried
first, returning the captured digit. -/
def quarterScan : List Char → Option Char
  | [] => none
  | c :: rest =>
    match qAltShort (c :: rest) with
    | some d => some d
    | none =>
      match qAltLong (c :: rest) with
      | some d => some d
      | none => quarterScan rest

namespace ChatBot

/-- Function `extractTimeFilter` of ChatBot.tsx (lines 65-98): explicit quarter
token first, then the month table in insertion order, then the literal
phrases `this quarter` / `current quarter`, and finally — when nothing
matched — still `getCurrentQuarter()`, so the function always returns a
concrete quarter string.  The real-world clock is passed in as
`nowYear`/`nowMonth`. -/
def extractTimeFilter (query : String) (nowYear nowMonth : ℕ) : String :=
  let lowerQuery := lowerStr query
  match quarterScan lowerQuery.data with
  | some d => toString nowYear ++ "-Q" ++ String.mk [d]
  | none =>
    match MONTH_TO_QUARTER.find? (fun p => strContains lowerQuery p.1) with
    | some p => toString nowYear ++ "-" ++ p.2
    | none =>
      if strContains lowerQuery "this quarter" || strContains lowerQuery "current quarter" then
        getCurrentQuarter nowYear nowMonth
      else
        getCurrentQuarter nowYear nowMonth

end ChatBot

namespace QueryAnalyzer

/-- Function `extractTimeFilter` of src/src/utils/queryAnalyzer.ts (lines 112-133):
explicit quarter token, then the `this/current quarter` phrases (resolved
with the same ceil(month/3) formula), otherwise `undefined`; this revision
has no month-name tier at all. -/
def extractTimeFilter (query : String) (nowYear nowMonth : ℕ) : Option String :=
  let lowerQuery := lowerStr query
  match quarterScan lowerQuery.data with
  | some d => some (toString nowYear ++ "-Q" ++ String.mk [d])
  | none =>
    if strContains lowerQuery "this quarter" || strContains lowerQuery "current quarter" then
      some (getCurrentQuarter nowYear nowMonth)
    else
      none

end QueryAnalyzer

/-- C6 counterexample: on a query with no time reference at all, the
ChatBot extractor does not leave the filter absent — it returns the
current real-world quarter (here October 2026 ↦ `2026-Q4`), while the
queryAnalyzer revision returns `none`. -/
theorem c6_counterexample :
    ChatBot.extractTimeFilter "how is asg doing" 2026 10 = "2026-Q4" ∧
    ChatBot.extractTimeFilter "how is asg doing" 2026 10 = getCurrentQuarter 2026 10 ∧
    QueryAnalyzer.extractTimeFilter "how is asg doing" 2026 10 = none := by
  refine ⟨by decide, by decide, by decide⟩

/-- C6 (amended): in the ChatBot extractor an explicit quarter token wins
over the month table, which wins over the `this/current quarter` phrase,
which resolves to today's quarter; but a query with no time reference is
not left absent — ChatBot's extractor still returns the current quarter,
and only the queryAnalyzer revision (which has no month tier) returns no
filter there. -/
theorem c6_time_filter (query : String) (nowYear nowMonth : ℕ) :
    (∀ d, quarterScan (lowerStr query).data = some d →
      ChatBot.extractTimeFilter query nowYear nowMonth =
        toString nowYear ++ "-Q" ++ String.mk [d] ∧
      QueryAnalyzer.extractTimeFilter query nowYear nowMonth =
        some (toString nowYear ++ "-Q" ++ String.mk [d])) ∧
    (∀ p, quarterScan (lowerStr query).data = none →
      MONTH_TO_QUARTER.find? (fun m => strContains (lowerStr query) m.1) = some p →
      ChatBot.extractTimeFilter query nowYear nowMonth = toString nowYear ++ "-" ++ p.2) ∧
    (quarterScan (lowerStr query).data = none →
      MONTH_TO_QUARTER.find? (fun m => strContains (lowerStr query) m.1) = none →
      (strContains (lowerStr query) "this quarter" ||
        strContains (lowerStr query) "current quarter") = true →
      ChatBot.extractTimeFilter query nowYear nowMonth = getCurrentQuarter nowYear nowMonth ∧
      QueryAnalyzer.extractTimeFilter query nowYear nowMonth =
        some (getCurrentQuarter nowYear nowMonth)) ∧
    (quarterScan (lowerStr query).data = none →
      MONTH_TO_QUARTER.find? (fun m => strContains (lowerStr query) m.1) = none →
      (strContains (lowerStr query) "this quarter" ||
        strContains (lowerStr query) "current quarter") = false →
      ChatBot.extractTimeFilter query nowYear nowMonth = getCurrentQuarter nowYear nowMonth ∧
      QueryAnalyzer.extractTimeFilter query nowYear nowMonth = none) := by
  refine ⟨?_, ?_, ?_, ?_⟩
  · intro d hq
    constructor
    · simp [ChatBot.extractTimeFilter, hq]
    · simp [QueryAnalyzer.extractTimeFilter, hq]
  · intro p hq hm
    simp [ChatBot.extractTimeFilter, hq, hm]
  · intro hq hm hp
    constructor
    · simp [ChatBot.extractTimeFilter, hq, hm, hp]
    · simp [QueryAnalyzer.extractTimeFilter, hq, hp]
  · intro hq hm hp
    constructor
    · simp [ChatBot.extractTimeFilter, hq, hm, hp]
    · simp [QueryAnalyzer.extractTimeFilter, hq, hp]

/-- C6 witness: the tiers instantiated on concrete queries — an explicit
quarter, a month name, the current-quarter phrase, and a query with no
time reference. -/
theorem c6_time_filter_witness :
    ChatBot.extractTimeFilter "Q3 results" 2026 10 = "2026-Q3" ∧
    ChatBot.extractTimeFilter "march results" 2026 10 = "2026-Q1" ∧
    ChatBot.extractTimeFilter "this quarter" 2026 10 = "2026-Q4" ∧
    QueryAnalyzer.extractTimeFilter "show programs" 2026 10 = none := by
  refine ⟨?_, ?_, ?_, ?_⟩
  · exact (((c6_time_filter "Q3 results" 2026 10).1 '3' (by decide)).1).trans (by decide)
  · exact (((c6_time_filter "march results" 2026 10).2.1 ("march", "Q1") (by decide)
      (by decide))).trans (by decide)
  · exact (((c6_time_filter "this quarter" 2026 10).2.2.1 (by decide) (by decide)
      (by decide)).1).trans (by decide)
  · exact ((c6_time_filter "show programs" 2026 10).2.2.2 (by decide) (by decide)
      (by decide)).2

/-- One pass of JavaScript `s.split(/\s+/)`.  In token mode (`true`) the
accumulator holds the current token reversed; a whitespace character emits
the token and switches to separator mode (`false`), which swallows the
rest of the whitespace run.  A leading run emits a leading empty token and
a trailing run a trailing empty token, exactly as the JavaScript split
does. -/
def splitWsAux : Bool → List Char → List Char → List String
  | _, [], acc => [String.mk acc.reverse]
  | true, c :: rest, acc =>
    if c.isWhitespace then String.mk acc.reverse :: splitWsAux false rest []
    else splitWsAux true rest (c :: acc)
  | false, c :: rest, _ =>
    if c.isWhitespace then splitWsAux false rest []
    else splitWsAux true rest [c]

/-- JavaScript `s.split(/\s+/)`. -/
def splitWsJS (s : String) : List String :=
  splitWsAux true s.data []

/-- JavaScript `words.join(' ')`. -/
def joinWords : List String → String
  | [] => ""
  | [w] => w
  | w :: rest => w ++ " " ++ joinWords rest

namespace Part003

/-- The stop-word array filtered out of the query tokens
(src/unnamed/part_003 line 461), in source order. -/
def stopWords : List String :=
  ["program", "programs", "lesson", "lessons", "performance", "funnel",
   "metrics", "how", "is", "doing", "show", "me", "the", "with", "vs",
   "versus", "compare", "comparison", "give", "total", "deliveries",
   "opens", "clicks"]

/-- Computes `query.toLowerCase().split(/\s+/).filter(word => !stopWords.includes(word))`
(src/unnamed/part_003 lines 460-462). -/
def queryWords (query : String) : List String :=
  (splitWsJS (lowerStr query)).filter (fun w => !stopWords.contains w)

/-- Computes `target.toLowerCase().split(/\s+/)` (src/unnamed/part_003 line 464). -/
def targetWords (target : String) : List String :=
  splitWsJS (lowerStr target)

/-- The inner loop of the word-based scoring (src/unnamed/part_003 lines
481-491): the first target word related to the query word decides its
contribution — 1.0 on equality, 0.8 on substring containment either way —
and the loop breaks; an unrelated query word contributes 0. -/
def wordScore (qw : String) : List String → ℚ
  | [] => 0
  | tw :: rest =>
    if qw = tw then 1
    else if strContains qw tw || strContains tw qw then 0.8
    else wordScore qw rest

/-- Function `calculateSimilarity` of src/unnamed/part_003 (lines 459-494):
exact phrase equality scores 1.0 (the source tests it twice), substring
containment of the joined phrases either way scores 0.9, and otherwise the
summed word scores are divided by the larger token count. -/
def calculateSimilarity (query target : String) : ℚ :=
  if joinWords (queryWords query) = joinWords (targetWords target) then 1
  else if joinWords (queryWords query) = joinWords (targetWords target) then 1
  else if strContains (joinWords (queryWords query)) (joinWords (targetWords target)) ||
      strContains (joinWords (targetWords target)) (joinWords (queryWords query)) then 0.9
  else if (max (queryWords query).length (targetWords target).length : ℚ) > 0 then
    ((queryWords query).map (fun qw => wordScore qw (targetWords target))).sum /
      (max (queryWords query).length (targetWords target).length : ℚ)
  else 0

/-- The pure tail of `findBestMatches` (src/unnamed/part_003 lines
527-540), applied once the distinct values have been fetched, the query
cleaned and the alias table missed: score every candidate, keep those
strictly above 0.3 and sort by descending score (JavaScript's stable
sort). -/
def findBestMatchesPure (cleanQuery : String) (uniqueItems : List String) : List String :=
  let scored := uniqueItems.map (fun item => (item, calculateSimilarity cleanQuery item))
  let bestMatches := (scored.filter (fun m => m.2 > 0.3)).mergeSort
    (fun a b => decide (b.2 ≤ a.2))
  bestMatches.map (fun m => m.1)

end Part003

/-- Function `calculateSimilarity` of ChatBot.tsx (lines 100-126), the earlier
revision: no stop-word filtering, containment scores 0.8 (not 0.9), and
each query word related to some target word counts a full 1 toward the
overlap. -/
def ChatBot.matchOne (w1 : String) : List String → ℚ
  | [] => 0
  | w2 :: rest =>
    if w1 = w2 || strContains w1 w2 || strContains w2 w1 then 1
    else ChatBot.matchOne w1 rest

/-- See `ChatBot.matchOne`; the outer part of ChatBot.tsx lines 100-126. -/
def ChatBot.calculateSimilarity (str1 str2 : String) : ℚ :=
  if lowerStr (trimStr str1) = lowerStr (trimStr str2) then 1
  else if strContains (lowerStr (trimStr str1)) (lowerStr (trimStr str2)) ||
      strContains (lowerStr (trimStr str2)) (lowerStr (trimStr str1)) then 0.8
  else
    ((splitWsJS (lowerStr (trimStr str1))).map
      (fun w1 => ChatBot.matchOne w1 (splitWsJS (lowerStr (trimStr str2))))).sum /
      (max (splitWsJS (lowerStr (trimStr str1))).length
        (splitWsJS (lowerStr (trimStr str2))).length : ℚ)

/-- C5 counterexample: a query token in mere substring relation to a
candidate token contributes 0.8, not 1, to the overlap numerator — on
query `foo barbaz` and candidate `bar qux` the code scores 0.8/2 = 2/5,
while the claimed count-based formula gives 1/2.  And in the ChatBot
revision, phrase containment scores 0.8, not the claimed 0.9. -/
theorem c5_counterexample :
    Part003.calculateSimilarity "foo barbaz" "bar qux" = 2/5 ∧
    ((2 : ℚ)/5 ≠ 1/2) ∧
    ChatBot.calculateSimilarity "asg primary" "asg primary path" = 4/5 ∧
    ((4 : ℚ)/5 ≠ 9/10) := by
  refine ⟨?_, by norm_num, ?_, by norm_num⟩
  · have hq : Part003.queryWords "foo barbaz" = ["foo", "barbaz"] := by decide
    have ht : Part003.targetWords "bar qux" = ["bar", "qux"] := by decide
    have w1 : Part003.wordScore "foo" ["bar", "qux"] = 0 := by
      simp only [Part003.wordScore]
      rw [if_neg (by decide), if_neg (by decide), if_neg (by decide), if_neg (by decide)]
    have w2 : Part003.wordScore "barbaz" ["bar", "qux"] = 0.8 := by
      simp only [Part003.wordScore]
      rw [if_neg (by decide), if_pos (by decide)]
    unfold Part003.calculateSimilarity
    rw [hq, ht]
    rw [if_neg (by decide), if_neg (by decide), if_neg (by decide), if_pos (by norm_num)]
    simp only [List.map_cons, List.map_nil, List.sum_cons, List.sum_nil, w1, w2,
      List.length_cons, List.length_nil]
    norm_num
  · unfold ChatBot.calculateSimilarity
    rw [if_neg (by decide), if_pos (by decide)]
    norm_num


theorem splitWsAux_ne_nil : ∀ (l : List Char) (mode : Bool) (acc : List Char),
    splitWsAux mode l acc ≠ []
  | [], mode, acc => by cases mode <;> simp [splitWsAux]
  | c :: rest, true, acc => by
    unfold splitWsAux
    split
    · simp
    · exact splitWsAux_ne_nil rest true (c :: acc)
  | c :: rest, false, acc => by
    unfold splitWsAux
    split
    · exact splitWsAux_ne_nil rest false []
    · exact splitWsAux_ne_nil rest true [c]

theorem splitWsJS_ne_nil (s : String) : splitWsJS s ≠ [] :=
  splitWsAux_ne_nil s.data true []

theorem splitWsAux_no_ws : ∀ (l : List Char) (mode : Bool) (acc : List Char),
    (∀ c ∈ acc, c.isWhitespace = false) →
    ∀ w ∈ splitWsAux mode l acc, ∀ c ∈ w.data, c.isWhitespace = false
  | [], mode, acc => by
    intro hacc w hw c hc
    have hw2 : w = String.mk acc.reverse := by
      cases mode <;> simpa [splitWsAux] using hw
    subst hw2
    exact hacc c (List.mem_reverse.1 hc)
  | c :: rest, true, acc => by
    intro hacc w hw d hd
    unfold splitWsAux at hw
    by_cases hws : c.isWhitespace = true
    · rw [if_pos hws] at hw
      rcases List.mem_cons.1 hw with rfl | hw2
      · exact hacc d (List.mem_reverse.1 hd)
      · exact splitWsAux_no_ws rest false [] (by simp) w hw2 d hd
    · rw [if_neg hws] at hw
      refine splitWsAux_no_ws rest true (c :: acc) ?_ w hw d hd
      intro e he
      rcases List.mem_cons.1 he with rfl | he2
      · exact Bool.not_eq_true _ ▸ hws
      · exact hacc e he2
  | c :: rest, false, acc => by
    intro hacc w hw d hd
    unfold splitWsAux at hw
    by_cases hws : c.isWhitespace = true
    · rw [if_pos hws] at hw
      exact splitWsAux_no_ws rest false [] (by simp) w hw d hd
    · rw [if_neg hws] at hw
      refine splitWsAux_no_ws rest true [c] ?_ w hw d hd
      intro e he
      rcases List.mem_cons.1 he with rfl | he2
      · exact Bool.not_eq_true _ ▸ hws
      · simp at he2

theorem splitWsJS_no_space (s : String) :
    ∀ w ∈ splitWsJS s, ∀ c ∈ w.data, c ≠ ' ' := by
  intro w hw c hc
  have := splitWsAux_no_ws s.data true [] (by simp) w hw c hc
  intro hsp
  rw [hsp] at this
  simp [Char.isWhitespace] at this

theorem noSpace_prefix_split : ∀ (u x y : List Char), (∀ c ∈ u, c ≠ ' ') →
    u <+: x ++ ' ' :: y → u <+: x
  | [], _, _ => fun _ _ => List.nil_prefix
  | d :: u2, x, y => by
    intro hns hpre
    cases x with
    | nil =>
      rw [List.nil_append] at hpre
      exact absurd (List.cons_prefix_cons.1 hpre).1 (hns d (List.mem_cons_self d u2))
    | cons e x2 =>
      rw [List.cons_append] at hpre
      obtain ⟨hde, hrest⟩ := List.cons_prefix_cons.1 hpre
      exact List.cons_prefix_cons.2
        ⟨hde, noSpace_prefix_split u2 x2 y (fun c hc => hns c (List.mem_cons_of_mem d hc)) hrest⟩

theorem noSpace_infix_split : ∀ (x u y : List Char), (∀ c ∈ u, c ≠ ' ') → u ≠ [] →
    u <:+: x ++ ' ' :: y → u <:+: x ∨ u <:+: y
  | [], u, y => by
    intro hns hne hinf
    rw [List.nil_append] at hinf
    rcases List.infix_cons_iff.1 hinf with hpre | hinf2
    · cases u with
      | nil => exact absurd rfl hne
      | cons d u2 =>
        exact absurd (List.cons_prefix_cons.1 hpre).1 (hns d (List.mem_cons_self d u2))
    · exact Or.inr hinf2
  | e :: x2, u, y => by
    intro hns hne hinf
    rw [List.cons_append] at hinf
    rcases List.infix_cons_iff.1 hinf with hpre | hinf2
    · left
      have : u <+: (e :: x2) ++ ' ' :: y := by rwa [List.cons_append]
      exact (noSpace_prefix_split u (e :: x2) y hns this).isInfix
    · rcases noSpace_infix_split x2 u y hns hne hinf2 with h | h
      · exact Or.inl (List.infix_cons_iff.2 (Or.inr h))
      · exact Or.inr h

theorem joinWords_cons_data (w w2 : String) (rest : List String) :
    (joinWords (w :: w2 :: rest)).data = w.data ++ ' ' :: (joinWords (w2 :: rest)).data := by
  show (w ++ " " ++ joinWords (w2 :: rest)).data = _
  rw [String.data_append, String.data_append]
  simp [List.append_assoc]

theorem infix_join : ∀ (ws : List String) (u : List Char), (∀ c ∈ u, c ≠ ' ') → u ≠ [] →
    u <:+: (joinWords ws).data → ∃ w ∈ ws, u <:+: w.data
  | [], u => by
    intro hns hne hinf
    have : (joinWords []).data = [] := rfl
    rw [this, List.infix_nil] at hinf
    exact absurd hinf hne
  | [w], u => by
    intro hns hne hinf
    exact ⟨w, List.mem_cons_self w [], hinf⟩
  | w :: w2 :: rest, u => by
    intro hns hne hinf
    rw [joinWords_cons_data] at hinf
    rcases noSpace_infix_split w.data u _ hns hne hinf with h | h
    · exact ⟨w, List.mem_cons_self w _, h⟩
    · obtain ⟨w3, hw3, hin⟩ := infix_join (w2 :: rest) u hns hne h
      exact ⟨w3, List.mem_cons_of_mem w hw3, hin⟩

theorem head_prefix_join (w : String) (rest : List String) :
    w.data <+: (joinWords (w :: rest)).data := by
  cases rest with
  | nil => exact List.prefix_refl _
  | cons w2 r =>
    rw [joinWords_cons_data]
    exact List.prefix_append _ _

theorem occurs_nil_left (l : List Char) : occurs [] l = true := by
  cases l <;> simp [occurs, List.isPrefixOf]

theorem Part003.wordScore_eq_zero (qw : String) : ∀ tws : List String,
    (∀ tw ∈ tws, qw ≠ tw ∧ strContains qw tw = false ∧ strContains tw qw = false) →
    Part003.wordScore qw tws = 0
  | [], _ => rfl
  | tw :: rest, h => by
    obtain ⟨h1, h2, h3⟩ := h tw (List.mem_cons_self tw rest)
    show Part003.wordScore qw (tw :: rest) = 0
    unfold Part003.wordScore
    rw [if_neg h1, if_neg (by simp [h2, h3])]
    exact Part003.wordScore_eq_zero qw rest (fun tw2 htw2 => h tw2 (List.mem_cons_of_mem tw htw2))

theorem Part003.max_len_pos (q t : String) :
    (0 : ℚ) < (max (Part003.queryWords q).length (Part003.targetWords t).length : ℚ) := by
  have h1 : 0 < (Part003.targetWords t).length :=
    List.length_pos.2 (splitWsJS_ne_nil (lowerStr t))
  exact_mod_cast lt_of_lt_of_le h1 (le_max_right _ _)

theorem Part003.disjoint_sim_zero (q t : String)
    (hne : Part003.queryWords q ≠ [])
    (hdisj : ∀ qw ∈ Part003.queryWords q, ∀ tw ∈ Part003.targetWords t,
      qw ≠ tw ∧ strContains qw tw = false ∧ strContains tw qw = false) :
    Part003.calculateSimilarity q t = 0 := by
  obtain ⟨qw0, qws2, hq⟩ := List.exists_cons_of_ne_nil hne
  obtain ⟨tw0, tws2, ht⟩ :=
    List.exists_cons_of_ne_nil (show Part003.targetWords t ≠ [] from splitWsJS_ne_nil _)
  have hqw0_mem : qw0 ∈ Part003.queryWords q := by rw [hq]; exact List.mem_cons_self _ _
  have htw0_mem : tw0 ∈ Part003.targetWords t := by rw [ht]; exact List.mem_cons_self _ _
  have hqw0_ne : qw0.data ≠ [] := by
    intro hempty
    have h3 := (hdisj qw0 hqw0_mem tw0 htw0_mem).2.2
    rw [show strContains tw0 qw0 = occurs qw0.data tw0.data from rfl, hempty,
      occurs_nil_left] at h3
    cases h3
  have htw0_ne : tw0.data ≠ [] := by
    intro hempty
    have h2 := (hdisj qw0 hqw0_mem tw0 htw0_mem).2.1
    rw [show strContains qw0 tw0 = occurs tw0.data qw0.data from rfl, hempty,
      occurs_nil_left] at h2
    cases h2
  have hq_nospace : ∀ qw ∈ Part003.queryWords q, ∀ c ∈ qw.data, c ≠ ' ' := by
    intro qw hqw
    exact splitWsJS_no_space (lowerStr q) qw (List.mem_of_mem_filter hqw)
  have ht_nospace : ∀ tw ∈ Part003.targetWords t, ∀ c ∈ tw.data, c ≠ ' ' := by
    intro tw htw
    exact splitWsJS_no_space (lowerStr t) tw htw
  -- the joined query phrase is never an infix of the joined target phrase
  have hnotQinT : ¬ (joinWords (Part003.queryWords q)).data <:+:
      (joinWords (Part003.targetWords t)).data := by
    intro hsub
    have hpre : qw0.data <+: (joinWords (Part003.queryWords q)).data := by
      rw [hq]; exact head_prefix_join qw0 qws2
    obtain ⟨tw, htw, hin⟩ := infix_join (Part003.targetWords t) qw0.data
      (hq_nospace qw0 hqw0_mem) hqw0_ne (hpre.isInfix.trans hsub)
    have := (hdisj qw0 hqw0_mem tw htw).2.2
    rw [show strContains tw qw0 = occurs qw0.data tw.data from rfl,
      (occurs_infix_iff qw0.data tw.data).2 hin] at this
    cases this
  have hnotTinQ : ¬ (joinWords (Part003.targetWords t)).data <:+:
      (joinWords (Part003.queryWords q)).data := by
    intro hsub
    have hpre : tw0.data <+: (joinWords (Part003.targetWords t)).data := by
      rw [ht]; exact head_prefix_join tw0 tws2
    obtain ⟨qw, hqw, hin⟩ := infix_join (Part003.queryWords q) tw0.data
      (ht_nospace tw0 htw0_mem) htw0_ne (hpre.isInfix.trans hsub)
    have := (hdisj qw hqw tw0 htw0_mem).2.1
    rw [show strContains qw tw0 = occurs tw0.data qw.data from rfl,
      (occurs_infix_iff tw0.data qw.data).2 hin] at this
    cases this
  have hne1 : joinWords (Part003.queryWords q) ≠ joinWords (Part003.targetWords t) := by
    intro heq
    exact hnotQinT (heq ▸ List.infix_refl _)
  have e1 : strContains (joinWords (Part003.queryWords q))
      (joinWords (Part003.targetWords t)) = false := by
    cases hcc : strContains (joinWords (Part003.queryWords q))
        (joinWords (Part003.targetWords t)) with
    | false => rfl
    | true => exact absurd ((occurs_infix_iff _ _).1 hcc) hnotTinQ
  have e2 : strContains (joinWords (Part003.targetWords t))
      (joinWords (Part003.queryWords q)) = false := by
    cases hcc : strContains (joinWords (Part003.targetWords t))
        (joinWords (Part003.queryWords q)) with
    | false => rfl
    | true => exact absurd ((occurs_infix_iff _ _).1 hcc) hnotQinT
  unfold Part003.calculateSimilarity
  rw [if_neg hne1, if_neg hne1, if_neg (by simp [e1, e2]),
    if_pos (Part003.max_len_pos q t)]
  have hsum : ((Part003.queryWords q).map
      (fun qw => Part003.wordScore qw (Part003.targetWords t))).sum = 0 := by
    refine List.sum_eq_zero ?_
    intro x hx
    obtain ⟨qw, hqw, rfl⟩ := List.mem_map.1 hx
    exact Part003.wordScore_eq_zero qw _ (hdisj qw hqw)
  rw [hsum]
  exact zero_div _

/-- C5 (amended): the part_003 fuzzy matcher scores 1.0 on exact equality
of the stop-word-cleaned query phrase with the candidate phrase and 0.9 on
substring containment either way; otherwise each query token contributes,
from the first candidate token related to it, 1.0 on equality but only 0.8
on mere substring relation, and the sum is divided by the larger token
count.  Completely disjoint token sets (with a non-empty cleaned query)
score 0.  Only candidates scoring strictly above 0.3 are returned, sorted
by descending score.  In the earlier ChatBot revision the containment tier
scores 0.8, not 0.9. -/
theorem c5_similarity_scoring :
    (∀ q t, joinWords (Part003.queryWords q) = joinWords (Part003.targetWords t) →
      Part003.calculateSimilarity q t = 1) ∧
    (∀ q t, joinWords (Part003.queryWords q) ≠ joinWords (Part003.targetWords t) →
      (strContains (joinWords (Part003.queryWords q)) (joinWords (Part003.targetWords t)) ||
       strContains (joinWords (Part003.targetWords t)) (joinWords (Part003.queryWords q))) = true →
      Part003.calculateSimilarity q t = 0.9) ∧
    (∀ q t, joinWords (Part003.queryWords q) ≠ joinWords (Part003.targetWords t) →
      (strContains (joinWords (Part003.queryWords q)) (joinWords (Part003.targetWords t)) ||
       strContains (joinWords (Part003.targetWords t)) (joinWords (Part003.queryWords q))) = false →
      Part003.calculateSimilarity q t =
        ((Part003.queryWords q).map (fun qw => Part003.wordScore qw (Part003.targetWords t))).sum /
          (max (Part003.queryWords q).length (Part003.targetWords t).length : ℚ)) ∧
    (∀ q t, Part003.queryWords q ≠ [] →
      (∀ qw ∈ Part003.queryWords q, ∀ tw ∈ Part003.targetWords t,
        qw ≠ tw ∧ strContains qw tw = false ∧ strContains tw qw = false) →
      Part003.calculateSimilarity q t = 0) ∧
    (∀ s1 s2, lowerStr (trimStr s1) ≠ lowerStr (trimStr s2) →
      (strContains (lowerStr (trimStr s1)) (lowerStr (trimStr s2)) ||
       strContains (lowerStr (trimStr s2)) (lowerStr (trimStr s1))) = true →
      ChatBot.calculateSimilarity s1 s2 = 0.8) ∧
    (∀ cq items, ∃ l : List (String × ℚ),
      Part003.findBestMatchesPure cq items = l.map (fun m => m.1) ∧
      l.Perm ((items.map (fun i => (i, Part003.calculateSimilarity cq i))).filter
        (fun m => m.2 > 0.3)) ∧
      l.Pairwise (fun a b => b.2 ≤ a.2) ∧
      (∀ m ∈ l, m.2 = Part003.calculateSimilarity cq m.1 ∧ m.2 > 0.3)) := by
  refine ⟨?_, ?_, ?_, ?_, ?_, ?_⟩
  · intro q t h
    unfold Part003.calculateSimilarity
    rw [if_pos h]
  · intro q t h1 h2
    unfold Part003.calculateSimilarity
    rw [if_neg h1, if_neg h1, if_pos h2]
  · intro q t h1 h2
    unfold Part003.calculateSimilarity
    rw [if_neg h1, if_neg h1, if_neg (by simp [h2]), if_pos (Part003.max_len_pos q t)]
  · exact fun q t => Part003.disjoint_sim_zero q t
  · intro s1 s2 h1 h2
    unfold ChatBot.calculateSimilarity
    rw [if_neg h1, if_pos h2]
  · intro cq items
    refine ⟨((items.map (fun i => (i, Part003.calculateSimilarity cq i))).filter
      (fun m => m.2 > 0.3)).mergeSort (fun a b => decide (b.2 ≤ a.2)), by rfl,
      List.mergeSort_perm _ _, ?_, ?_⟩
    · have hs := @List.sorted_mergeSort (String × ℚ)
        (fun a b => decide (b.2 ≤ a.2))
        (fun a b c hab hbc => by
          simp only [decide_eq_true_eq] at hab hbc ⊢
          exact le_trans hbc hab)
        (fun a b => by
          simp only [Bool.or_eq_true, decide_eq_true_eq]
          exact le_total b.2 a.2)
        ((items.map (fun i => (i, Part003.calculateSimilarity cq i))).filter
          (fun m => m.2 > 0.3))
      exact hs.imp (fun h => of_decide_eq_true h)
    · intro m hm
      have hmem : m ∈ (items.map (fun i => (i, Part003.calculateSimilarity cq i))).filter
          (fun m => m.2 > 0.3) :=
        ((List.mergeSort_perm _ _).mem_iff).1 hm
      obtain ⟨hmap, hp⟩ := List.mem_filter.1 hmem
      obtain ⟨i, _, rfl⟩ := List.mem_map.1 hmap
      exact ⟨rfl, of_decide_eq_true hp⟩

/-- C5 witness: the scoring tiers instantiated on concrete strings —
exact phrase equality, phrase containment (both revisions), disjoint
tokens, and the filtered sorted candidate list. -/
theorem c5_similarity_scoring_witness :
    Part003.calculateSimilarity "pmax path" "pmax path" = 1 ∧
    Part003.calculateSimilarity "pmax" "pmax path" = 0.9 ∧
    Part003.calculateSimilarity "alpha" "beta gamma" = 0 ∧
    ChatBot.calculateSimilarity "asg" "asg path" = 0.8 ∧
    (∃ l : List (String × ℚ),
      Part003.findBestMatchesPure "lpw" ["LPW Path", "Unrelated"] = l.map (fun m => m.1) ∧
      l.Perm ((["LPW Path", "Unrelated"].map
        (fun i => (i, Part003.calculateSimilarity "lpw" i))).filter (fun m => m.2 > 0.3)) ∧
      l.Pairwise (fun a b => b.2 ≤ a.2) ∧
      (∀ m ∈ l, m.2 = Part003.calculateSimilarity "lpw" m.1 ∧ m.2 > 0.3)) :=
  ⟨c5_similarity_scoring.1 "pmax path" "pmax path" (by decide),
   c5_similarity_scoring.2.1 "pmax" "pmax path" (by decide) (by decide),
   c5_similarity_scoring.2.2.2.1 "alpha" "beta gamma" (by decide) (by decide),
   c5_similarity_scoring.2.2.2.2.1 "asg" "asg path" (by decide) (by decide),
   c5_similarity_scoring.2.2.2.2.2 "lpw" ["LPW Path", "Unrelated"]⟩
